/-
Verification of the terrain-extrusion and STL-conversion core of the
city-download-portal repository.

The development shallowly embeds, in Lean 4:
  * the Solid Extruder (`extrudeTerrainMesh`), the Boundary Edge Finder
    (`findBoundaryEdges`) and the base-elevation computation of
    `extractElevation`, all from the terrain-export module;
  * the Geometry Attribute Normalizer (`normalizeGeometry`) and the STL
    conversion entry point (`convertToSTL`) from
    `app/utils/glb-to-stl-converter.ts`, at the level of attribute sets and
    control flow, with the external three.js merge operation abstracted as a
    function parameter.

Vertex coordinates are represented as rationals: the extrusion code only
copies coordinate values and writes the bottom elevation, and the elevation
computation uses only `min` and one subtraction, so the embedding is exact on
these operations. Index buffers are lists of naturals read in chunks of 3.
-/
import Mathlib

namespace CityPortal

/-! ## Data model

A mesh follows the repository's data model: an optional flat position buffer
(3 entries per vertex), an optional ordered list of components each carrying
an optional face (index) buffer, and a spatial-reference identifier. -/

structure MeshComponent where
  faces : Option (List ℕ)
deriving DecidableEq, Repr

structure Mesh where
  position : Option (List ℚ)
  components : Option (List MeshComponent)
  spatialReference : ℕ
deriving DecidableEq, Repr

/-- `mesh.components?.[0]?.faces` in the source: the face buffer of the first
component, when every link in the optional chain is present. -/
def Mesh.firstFaces (m : Mesh) : Option (List ℕ) :=
  m.components.bind fun cs => cs.head?.bind fun c => c.faces

/-- Number of vertices of a mesh: position-buffer length divided by 3. -/
def Mesh.vertexCount (m : Mesh) : ℕ :=
  (m.position.getD []).length / 3

/-- Length of the first component's face (index) buffer. -/
def Mesh.faceBufferLength (m : Mesh) : ℕ :=
  (m.firstFaces.getD []).length

/-- Number of triangles encoded by the first component's face buffer. -/
def Mesh.triangleCount (m : Mesh) : ℕ :=
  m.faceBufferLength / 3

/-! ## Boundary Edge Finder (`findBoundaryEdges` / `addEdge` in the source)

The source canonicalizes each undirected edge as a string key
`"min-max"` and counts occurrences in a `Map` (which preserves insertion
order), then reports each edge whose counter equals 1, splitting the key back
into the (min, max) pair. We model the key as the ordered pair directly, the
map as the list of half-edge keys in emission order, and the iteration over
`Map.entries()` as iteration over the keys in first-insertion order
(`dedupKeys`). -/

/-- Canonical edge key: smaller vertex index first (`addEdge`). -/
def canonEdge (v1 v2 : ℕ) : ℕ × ℕ :=
  if v1 < v2 then (v1, v2) else (v2, v1)

/-- All canonical edge keys emitted while walking the face buffer three
indices at a time: for each triangle `(v1, v2, v3)` the keys of edges
`(v1,v2)`, `(v2,v3)`, `(v3,v1)`, in source order. -/
def meshEdges : List ℕ → List (ℕ × ℕ)
  | v1 :: v2 :: v3 :: rest =>
      canonEdge v1 v2 :: canonEdge v2 v3 :: canonEdge v3 v1 :: meshEdges rest
  | _ => []

/-- The face buffer read as a list of triangles (three indices at a time). -/
def meshTriangles : List ℕ → List (ℕ × ℕ × ℕ)
  | a :: b :: c :: rest => (a, b, c) :: meshTriangles rest
  | _ => []

/-- Key insertion into the ordered key list: a key already present keeps its
place (the `Map` only updates its counter), a new key goes to the end. -/
def insertKey (acc : List (ℕ × ℕ)) (e : ℕ × ℕ) : List (ℕ × ℕ) :=
  if e ∈ acc then acc else acc ++ [e]

/-- The ordered key list of the JavaScript `Map` after all insertions:
first-occurrence order. -/
def dedupKeys (l : List (ℕ × ℕ)) : List (ℕ × ℕ) :=
  l.foldl insertKey []

/-- `findBoundaryEdges`: every canonical edge key whose occurrence count over
the whole face buffer is exactly 1, in first-insertion order. -/
def findBoundaryEdges (faces : List ℕ) : List (ℕ × ℕ) :=
  let edges := meshEdges faces
  (dedupKeys edges).filter fun e => edges.count e = 1

/-! ## Solid Extruder (`extrudeTerrainMesh` in the source) -/

/-- The synthesized bottom vertices: for `i` ranging over the original vertex
count (ascending, matching the source loop), copy the top vertex's x and y and
write the flat bottom elevation as z. -/
def bottomVerts (orig : List ℚ) (bottomElevation : ℚ) : ℕ → List ℚ
  | 0 => []
  | i + 1 =>
      bottomVerts orig bottomElevation i ++
        [orig.getD (3 * i) 0, orig.getD (3 * i + 1) 0, bottomElevation]

/-- The side-wall indices: for each boundary edge `(v1, v2)`, two triangles
`(topV1, bottomV1, topV2)` and `(topV2, bottomV1, bottomV2)` where the bottom
copy of vertex `v` is `v + n`. -/
def sideFaces (n : ℕ) : List (ℕ × ℕ) → List ℕ
  | [] => []
  | (v1, v2) :: rest =>
      v1 :: (v1 + n) :: v2 :: v2 :: (v1 + n) :: (v2 + n) :: sideFaces n rest

/-- The bottom-face indices: each original triangle `(a, b, c)` reappears with
reversed winding and indices offset by the vertex count: `(c+n, b+n, a+n)`. -/
def bottomFaces (n : ℕ) : List ℕ → List ℕ
  | a :: b :: c :: rest => (c + n) :: (b + n) :: (a + n) :: bottomFaces n rest
  | _ => []

/-- `extrudeTerrainMesh`: if the position buffer, the first component's face
buffer, or the components list is absent, return the input mesh unchanged;
otherwise build the closed solid: top vertices followed by flat bottom
vertices, and the face buffer `original ++ side walls ++ reversed bottom`. -/
def extrudeTerrainMesh (mesh : Mesh) (bottomElevation : ℚ) : Mesh :=
  match mesh.position, mesh.firstFaces, mesh.components with
  | some originalVertices, some originalFaces, some _ =>
      let vertexCount := originalVertices.length / 3
      let newVertices :=
        originalVertices ++ bottomVerts originalVertices bottomElevation vertexCount
      let boundaryEdges := findBoundaryEdges originalFaces
      let newFaces :=
        originalFaces ++ sideFaces vertexCount boundaryEdges ++
          bottomFaces vertexCount originalFaces
      { position := some newVertices
        components := some [{ faces := some newFaces }]
        spatialReference := mesh.spatialReference }
  | _, _, _ => mesh

/-! ## Base-elevation computation (`extractElevation` in the source)

`extractElevation` asks the external elevation service for a terrain mesh,
then (when `extrudeBase` is set) computes the flat bottom elevation from the
terrain extent's `zmin` and the selected features' extents, and extrudes.
The terrain mesh and its extent come from outside the function, so they are
parameters here; the features map is modelled as the list of its value lists,
each feature contributing its geometry extent's optional `zmin`. -/

/-- The elevation computation of `extractElevation`: start from the terrain
extent's `zmin` (defaulting to 0 when absent); when a non-empty features map
is supplied and it contains at least one feature, fold `min` over the defined
feature `zmin`s; finally subtract the extrusion depth. -/
def computeBaseElevation (terrainZmin : Option ℚ)
    (features : Option (List (List (Option ℚ)))) (extrusionDepth : ℚ) : ℚ :=
  let minElevation := terrainZmin.getD 0
  let minElevation :=
    match features with
    | some layers =>
        if 0 < layers.length then
          let allFeatures := layers.flatten
          if 0 < allFeatures.length then
            (allFeatures.filterMap id).foldl min minElevation
          else minElevation
        else minElevation
    | none => minElevation
  minElevation - extrusionDepth

/-- `extractElevation` restricted to its geometric content: return the terrain
mesh unchanged when `extrudeBase` is off, otherwise extrude it down to the
computed base elevation. (Component renaming and material assignment are
metadata outside the model.) -/
def extractElevation (mesh : Mesh) (terrainZmin : Option ℚ)
    (features : Option (List (List (Option ℚ)))) (extrudeBase : Bool)
    (extrusionDepth : ℚ) : Mesh :=
  if !extrudeBase then mesh
  else extrudeTerrainMesh mesh (computeBaseElevation terrainZmin features extrusionDepth)

/-! ## GLB-to-STL converter (`glb-to-stl-converter.ts`)

`normalizeGeometry` and `convertToSTL` are modelled at the level the claims
speak about: the attribute set of a buffer geometry, the scene's scale vector
and list of mesh children, and the control flow of `convertToSTL`. The
external three.js merge (`BufferGeometryUtils.mergeGeometries`), which can
return null or throw on mismatched layouts, is a function parameter returning
`Option`; the STL exporter itself always produces a buffer, recorded as which
object it serialized. -/

structure BufferGeometry where
  hasPosition : Bool
  hasNormal : Bool
  hasUV : Bool
  otherAttrs : List String
deriving DecidableEq, Repr

/-- `normalizeGeometry`: clone, compute vertex normals when absent (three.js
`computeVertexNormals` only writes the normal attribute when a position
attribute exists), zero-fill `uv` when absent (reading `positions.count`
throws when the position attribute is absent, modelled as `none`), then delete
every attribute outside `position`, `normal`, `uv`. -/
def normalizeGeometry (g : BufferGeometry) : Option BufferGeometry :=
  let hasNormal := g.hasNormal || g.hasPosition
  if !g.hasUV && !g.hasPosition then none
  else some { hasPosition := g.hasPosition, hasNormal := hasNormal,
              hasUV := true, otherAttrs := [] }

structure Vec3 where
  x : ℚ
  y : ℚ
  z : ℚ
deriving DecidableEq, Repr

/-- `Vector3.multiplyScalar`. -/
def vecScale (s : ℚ) (v : Vec3) : Vec3 :=
  ⟨s * v.x, s * v.y, s * v.z⟩

structure SceneMesh where
  geometry : BufferGeometry
deriving DecidableEq, Repr

structure Scene where
  scale : Vec3
  meshes : List SceneMesh
deriving DecidableEq, Repr

structure ConversionOptions where
  binary : Bool := true
  scale : ℚ := 1
  mergeGeometries : Bool := true
deriving DecidableEq, Repr

/-- What the STL exporter was handed: either a single merged geometry, or the
whole scene exported component by component. -/
inductive STLData where
  | fromMerged (g : BufferGeometry) (binary : Bool)
  | fromScene (scene : Scene) (binary : Bool)
deriving DecidableEq, Repr

/-- The geometry collection loop of `convertToSTL`: each mesh child's
geometry is cloned, transformed and normalized; a child whose processing
throws (normalization without position and uv) is skipped with a warning. -/
def collectGeometries (meshes : List SceneMesh) : List BufferGeometry :=
  meshes.filterMap fun m => normalizeGeometry m.geometry

/-- The in-place `scene.scale.multiplyScalar(scale)` applied when the scale
option differs from 1. -/
def applyScale (scene : Scene) (s : ℚ) : Scene :=
  if s ≠ 1 then { scene with scale := vecScale s scene.scale } else scene

/-- `convertToSTL`: scale the scene in place when requested; when merging,
collect and normalize the child geometries, fail when none were found, try
the external merge and export the merged mesh, falling back to exporting the
scene unmerged when the merge fails; when not merging, export the scene
directly. Returns the export outcome together with the (possibly mutated)
scene. -/
def convertToSTL (merge : List BufferGeometry → Option BufferGeometry)
    (scene : Scene) (opts : ConversionOptions) :
    Except String STLData × Scene :=
  let scene1 := applyScale scene opts.scale
  if opts.mergeGeometries then
    let geometries := collectGeometries scene1.meshes
    if geometries.length = 0 then
      (.error "No mesh geometries found in the scene", scene1)
    else
      match merge geometries with
      | some merged => (.ok (.fromMerged merged opts.binary), scene1)
      | none => (.ok (.fromScene scene1 opts.binary), scene1)
  else
    (.ok (.fromScene scene1 opts.binary), scene1)

/-! ## Helper lemmas on the extrusion building blocks -/

/-- The three canonical edge keys of one triangle. -/
def triangleEdges (t : ℕ × ℕ × ℕ) : List (ℕ × ℕ) :=
  [canonEdge t.1 t.2.1, canonEdge t.2.1 t.2.2, canonEdge t.2.2 t.1]

theorem length_bottomVerts (orig : List ℚ) (e : ℚ) (n : ℕ) :
    (bottomVerts orig e n).length = 3 * n := by
  induction n with
  | zero => rfl
  | succ k ih =>
      simp only [bottomVerts, List.length_append, ih, List.length_cons,
        List.length_nil]
      omega

theorem length_sideFaces (n : ℕ) (es : List (ℕ × ℕ)) :
    (sideFaces n es).length = 6 * es.length := by
  induction es with
  | nil => rfl
  | cons e rest ih =>
      obtain ⟨v1, v2⟩ := e
      simp only [sideFaces, List.length_cons, ih]
      omega

theorem length_bottomFaces (n : ℕ) :
    ∀ l : List ℕ, 3 ∣ l.length → (bottomFaces n l).length = l.length
  | [], _ => rfl
  | [a], h => by simp only [List.length_cons, List.length_nil] at h; omega
  | [a, b], h => by simp only [List.length_cons, List.length_nil] at h; omega
  | a :: b :: c :: rest, h => by
      have h' : 3 ∣ rest.length := by
        simp only [List.length_cons] at h
        omega
      simp only [bottomFaces, List.length_cons, length_bottomFaces n rest h']

theorem meshTriangles_append :
    ∀ l₁ l₂ : List ℕ, 3 ∣ l₁.length →
      meshTriangles (l₁ ++ l₂) = meshTriangles l₁ ++ meshTriangles l₂
  | [], _, _ => rfl
  | [a], _, h => by simp only [List.length_cons, List.length_nil] at h; omega
  | [a, b], _, h => by
      simp only [List.length_cons, List.length_nil] at h; omega
  | a :: b :: c :: rest, l₂, h => by
      have h' : 3 ∣ rest.length := by
        simp only [List.length_cons] at h
        omega
      show meshTriangles (a :: b :: c :: (rest ++ l₂)) = _
      rw [meshTriangles, meshTriangles, meshTriangles_append rest l₂ h',
        List.cons_append]

theorem meshTriangles_sideFaces (n : ℕ) :
    ∀ es : List (ℕ × ℕ),
      meshTriangles (sideFaces n es) =
        es.flatMap fun e => [(e.1, e.1 + n, e.2), (e.2, e.1 + n, e.2 + n)]
  | [] => rfl
  | (v1, v2) :: rest => by
      simp only [sideFaces, meshTriangles, List.flatMap_cons,
        meshTriangles_sideFaces n rest, List.cons_append, List.nil_append]

theorem meshTriangles_bottomFaces (n : ℕ) :
    ∀ l : List ℕ,
      meshTriangles (bottomFaces n l) =
        (meshTriangles l).map fun t => (t.2.2 + n, t.2.1 + n, t.1 + n)
  | [] => rfl
  | [_] => rfl
  | [_, _] => rfl
  | a :: b :: c :: rest => by
      simp only [bottomFaces, meshTriangles, List.map_cons,
        meshTriangles_bottomFaces n rest]

theorem meshEdges_eq_flatMap :
    ∀ faces : List ℕ, meshEdges faces = (meshTriangles faces).flatMap triangleEdges
  | [] => rfl
  | [_] => rfl
  | [_, _] => rfl
  | a :: b :: c :: rest => by
      simp only [meshEdges, meshTriangles, List.flatMap_cons,
        meshEdges_eq_flatMap rest, triangleEdges, List.cons_append,
        List.nil_append]

/-- Reduction of `extrudeTerrainMesh` on an accepted mesh: the match selects
the building branch and the output structure is the literal construction. -/
theorem extrudeTerrainMesh_eq (m : Mesh) (verts : List ℚ) (faces : List ℕ)
    (elev : ℚ) (hpos : m.position = some verts)
    (hff : m.firstFaces = some faces) :
    extrudeTerrainMesh m elev =
      { position := some (verts ++ bottomVerts verts elev (verts.length / 3))
        components := some
          [⟨some (faces ++ sideFaces (verts.length / 3) (findBoundaryEdges faces)
            ++ bottomFaces (verts.length / 3) faces)⟩]
        spatialReference := m.spatialReference } := by
  obtain ⟨cs, hcs, -⟩ := Option.bind_eq_some.mp hff
  simp only [extrudeTerrainMesh, hpos, hff, hcs]

/-! ## C1, C4, C5: extruder counts, the flat-square instance, the fallback -/

/-- C1: for every input mesh accepted by the Solid Extruder (position buffer,
face buffer and components present, both buffers well-formed, i.e. of length
a multiple of 3), the output vertex count is exactly twice the input vertex
count, and the output face-buffer length is twice the input face-buffer
length plus 6 times the number of boundary edges of the input face buffer. -/
theorem extruder_counts (m : Mesh) (verts : List ℚ) (faces : List ℕ) (elev : ℚ)
    (hpos : m.position = some verts) (hff : m.firstFaces = some faces)
    (hv : 3 ∣ verts.length) (hf : 3 ∣ faces.length) :
    (extrudeTerrainMesh m elev).vertexCount = 2 * m.vertexCount ∧
    (extrudeTerrainMesh m elev).faceBufferLength =
      2 * m.faceBufferLength + 6 * (findBoundaryEdges faces).length := by
  have hred := extrudeTerrainMesh_eq m verts faces elev hpos hff
  have hvc : m.vertexCount = verts.length / 3 := by
    simp only [Mesh.vertexCount, hpos, Option.getD_some]
  have hfb : m.faceBufferLength = faces.length := by
    simp only [Mesh.faceBufferLength, hff, Option.getD_some]
  rw [hred, hvc, hfb]
  constructor
  · simp only [Mesh.vertexCount, Option.getD_some, List.length_append,
      length_bottomVerts]
    omega
  · simp only [Mesh.faceBufferLength, Mesh.firstFaces, Option.bind_some,
      List.head?_cons, Option.some_bind, Option.getD_some,
      List.length_append, length_sideFaces, length_bottomFaces _ _ hf]
    omega

/-- Closed instance of C1 on a single triangle. -/
theorem extruder_counts_witness :
    (extrudeTerrainMesh
        ⟨some [0,0,0, 1,0,0, 0,1,0], some [⟨some [0,1,2]⟩], 0⟩ 7).vertexCount =
      2 * (⟨some [0,0,0, 1,0,0, 0,1,0], some [⟨some [0,1,2]⟩], 0⟩ : Mesh).vertexCount ∧
    (extrudeTerrainMesh
        ⟨some [0,0,0, 1,0,0, 0,1,0], some [⟨some [0,1,2]⟩], 0⟩ 7).faceBufferLength =
      2 * (⟨some [0,0,0, 1,0,0, 0,1,0], some [⟨some [0,1,2]⟩], 0⟩ : Mesh).faceBufferLength +
        6 * (findBoundaryEdges [0,1,2]).length :=
  extruder_counts _ _ _ 7 rfl rfl (by decide) (by decide)

/-- The flat square of the spec: 4 vertices at z = 0, two triangles. -/
def squareMesh : Mesh :=
  { position := some [0,0,0, 1,0,0, 1,1,0, 0,1,0]
    components := some [{ faces := some [0,1,2, 0,2,3] }]
    spatialReference := 0 }

/-- C4: extruding the flat square (4 vertices, 2 triangles, all at z = 0) with
bottom elevation −10 yields 8 vertices and 12 triangles; the face buffer is
exactly the 2 top triangles, then 2 wall triangles for each of the 4 boundary
edges, then the 2 reversed bottom triangles, and the 4 synthesized bottom
vertices sit at z = −10. -/
theorem extrude_square :
    (extrudeTerrainMesh squareMesh (-10)).vertexCount = 8 ∧
    (extrudeTerrainMesh squareMesh (-10)).triangleCount = 12 ∧
    (findBoundaryEdges [0,1,2, 0,2,3]).length = 4 ∧
    (extrudeTerrainMesh squareMesh (-10)).position =
      some [0,0,0, 1,0,0, 1,1,0, 0,1,0,
            0,0,-10, 1,0,-10, 1,1,-10, 0,1,-10] ∧
    (extrudeTerrainMesh squareMesh (-10)).firstFaces =
      some [0,1,2, 0,2,3,
            0,4,1, 1,4,5, 1,5,2, 2,5,6, 2,6,3, 3,6,7, 0,4,3, 3,4,7,
            6,5,4, 7,6,4] := by
  refine ⟨by decide, by decide, by decide, ?_, by decide⟩
  simp only [extrudeTerrainMesh, squareMesh, Mesh.firstFaces]
  norm_num [bottomVerts]

/-! ## C2: the extruder's construction, piece by piece -/

theorem bottomVerts_getD (orig : List ℚ) (e : ℚ) :
    ∀ n i, i < n →
      (bottomVerts orig e n).getD (3 * i) 0 = orig.getD (3 * i) 0 ∧
      (bottomVerts orig e n).getD (3 * i + 1) 0 = orig.getD (3 * i + 1) 0 ∧
      (bottomVerts orig e n).getD (3 * i + 2) 0 = e := by
  intro n
  induction n with
  | zero => omega
  | succ k ih =>
      intro i hi
      by_cases hik : i < k
      · have hlen := length_bottomVerts orig e k
        have h0 : 3 * i < (bottomVerts orig e k).length := by omega
        have h1 : 3 * i + 1 < (bottomVerts orig e k).length := by omega
        have h2 : 3 * i + 2 < (bottomVerts orig e k).length := by omega
        simp only [bottomVerts, List.getD_append _ _ _ _ h0,
          List.getD_append _ _ _ _ h1, List.getD_append _ _ _ _ h2]
        exact ih i hik
      · have hik' : i = k := by omega
        subst hik'
        have hlen := length_bottomVerts orig e i
        simp only [bottomVerts,
          List.getD_append_right _ _ _ _ (by omega : (bottomVerts orig e i).length ≤ 3 * i),
          List.getD_append_right _ _ _ _ (by omega : (bottomVerts orig e i).length ≤ 3 * i + 1),
          List.getD_append_right _ _ _ _ (by omega : (bottomVerts orig e i).length ≤ 3 * i + 2),
          hlen]
        have e0 : 3 * i - 3 * i = 0 := by omega
        have e1 : 3 * i + 1 - 3 * i = 1 := by omega
        have e2 : 3 * i + 2 - 3 * i = 2 := by omega
        rw [e0, e1, e2]
        exact ⟨rfl, rfl, rfl⟩

/-- C2: on an accepted, well-formed mesh, the extruder's output is built as
specified: (1) the bottom vertex for each original vertex `i` sits at buffer
offset `len + 3·i`, copies the top vertex's x and y, and has the shared flat
bottom elevation as z; (2) and (3) the output face buffer, read as triangles,
is the original triangles, then for each boundary edge `(v1, v2)` the two
wall triangles `(v1, v1+N, v2)` and `(v2, v1+N, v2+N)`, then for each
original triangle `(a, b, c)` the reversed bottom triangle
`(c+N, b+N, a+N)`, with N the original vertex count. -/
theorem extruder_construction (m : Mesh) (verts : List ℚ) (faces : List ℕ)
    (elev : ℚ) (hpos : m.position = some verts)
    (hff : m.firstFaces = some faces)
    (hv : 3 ∣ verts.length) (hf : 3 ∣ faces.length) :
    (∀ i < verts.length / 3,
      ((extrudeTerrainMesh m elev).position.getD []).getD
          (verts.length + 3 * i) 0 = verts.getD (3 * i) 0 ∧
      ((extrudeTerrainMesh m elev).position.getD []).getD
          (verts.length + 3 * i + 1) 0 = verts.getD (3 * i + 1) 0 ∧
      ((extrudeTerrainMesh m elev).position.getD []).getD
          (verts.length + 3 * i + 2) 0 = elev) ∧
    meshTriangles ((extrudeTerrainMesh m elev).firstFaces.getD []) =
      meshTriangles faces ++
        ((findBoundaryEdges faces).flatMap fun e =>
          [(e.1, e.1 + verts.length / 3, e.2),
           (e.2, e.1 + verts.length / 3, e.2 + verts.length / 3)]) ++
        ((meshTriangles faces).map fun t =>
          (t.2.2 + verts.length / 3, t.2.1 + verts.length / 3,
           t.1 + verts.length / 3)) := by
  rw [extrudeTerrainMesh_eq m verts faces elev hpos hff]
  constructor
  · intro i hi
    simp only [Option.getD_some]
    have hlv : (3 : ℕ) ∣ verts.length := hv
    rw [List.getD_append_right _ _ _ _ (by omega : verts.length ≤ verts.length + 3 * i),
      List.getD_append_right _ _ _ _ (by omega : verts.length ≤ verts.length + 3 * i + 1),
      List.getD_append_right _ _ _ _ (by omega : verts.length ≤ verts.length + 3 * i + 2)]
    have e0 : verts.length + 3 * i - verts.length = 3 * i := by omega
    have e1 : verts.length + 3 * i + 1 - verts.length = 3 * i + 1 := by omega
    have e2 : verts.length + 3 * i + 2 - verts.length = 3 * i + 2 := by omega
    rw [e0, e1, e2]
    exact bottomVerts_getD verts elev (verts.length / 3) i hi
  · simp only [Mesh.firstFaces, Option.bind_some, List.head?_cons,
      Option.some_bind, Option.getD_some]
    have hside : 3 ∣ (faces ++
        sideFaces (verts.length / 3) (findBoundaryEdges faces)).length := by
      rw [List.length_append, length_sideFaces]
      omega
    rw [meshTriangles_append _ _ hside, meshTriangles_append _ _ hf,
      meshTriangles_sideFaces, meshTriangles_bottomFaces]

/-- Closed instance of C2 on a single triangle, with the bottom-vertex part
specialized to vertex 0. -/
theorem extruder_construction_witness :
    (((extrudeTerrainMesh
          ⟨some [0,0,0, 1,0,0, 0,1,0], some [⟨some [0,1,2]⟩], 0⟩ 7).position.getD
        []).getD (9 + 3 * 0) 0 = [(0:ℚ),0,0, 1,0,0, 0,1,0].getD (3 * 0) 0 ∧
      (((extrudeTerrainMesh
          ⟨some [0,0,0, 1,0,0, 0,1,0], some [⟨some [0,1,2]⟩], 0⟩ 7).position.getD
        []).getD (9 + 3 * 0 + 1) 0 = [(0:ℚ),0,0, 1,0,0, 0,1,0].getD (3 * 0 + 1) 0) ∧
      ((extrudeTerrainMesh
          ⟨some [0,0,0, 1,0,0, 0,1,0], some [⟨some [0,1,2]⟩], 0⟩ 7).position.getD
        []).getD (9 + 3 * 0 + 2) 0 = 7) ∧
    meshTriangles ((extrudeTerrainMesh
        ⟨some [0,0,0, 1,0,0, 0,1,0], some [⟨some [0,1,2]⟩], 0⟩ 7).firstFaces.getD []) =
      meshTriangles [0,1,2] ++
        ((findBoundaryEdges [0,1,2]).flatMap fun e =>
          [(e.1, e.1 + 3, e.2), (e.2, e.1 + 3, e.2 + 3)]) ++
        ((meshTriangles [0,1,2]).map fun t => (t.2.2 + 3, t.2.1 + 3, t.1 + 3)) :=
  ⟨(extruder_construction ⟨some [0,0,0, 1,0,0, 0,1,0], some [⟨some [0,1,2]⟩], 0⟩
      [0,0,0, 1,0,0, 0,1,0] [0,1,2] 7 rfl rfl (by decide) (by decide)).1 0
      (by decide),
   (extruder_construction ⟨some [0,0,0, 1,0,0, 0,1,0], some [⟨some [0,1,2]⟩], 0⟩
      [0,0,0, 1,0,0, 0,1,0] [0,1,2] 7 rfl rfl (by decide) (by decide)).2⟩

/-! ## C3: the Boundary Edge Finder returns exactly the once-occurring edges

The spec's caller contract forbids degenerate edges, so each triangle's three
vertices are pairwise distinct; under that contract each key occurrence in
the edge map corresponds to one triangle containing the edge. -/

/-- A triangle with three pairwise distinct vertices (the spec's caller
contract: no degenerate edge). -/
abbrev nondegenerate (t : ℕ × ℕ × ℕ) : Prop :=
  t.1 ≠ t.2.1 ∧ t.2.1 ≠ t.2.2 ∧ t.2.2 ≠ t.1

theorem canonEdge_eq_iff (a b c d : ℕ) :
    canonEdge a b = canonEdge c d ↔ (a = c ∧ b = d) ∨ (a = d ∧ b = c) := by
  unfold canonEdge
  split_ifs <;> simp only [Prod.mk.injEq] <;> omega

theorem triangleEdges_nodup (t : ℕ × ℕ × ℕ) (h : nondegenerate t) :
    (triangleEdges t).Nodup := by
  obtain ⟨a, b, c⟩ := t
  obtain ⟨h1, h2, h3⟩ := h
  simp only [ne_eq] at h1 h2 h3
  refine List.nodup_cons.mpr ⟨?_, List.nodup_cons.mpr ⟨?_, List.nodup_singleton _⟩⟩
  · simp only [triangleEdges, List.mem_cons, List.not_mem_nil, or_false,
      canonEdge_eq_iff]
    omega
  · simp only [triangleEdges, List.mem_singleton, canonEdge_eq_iff]
    omega

theorem count_le_one_of_nodup :
    ∀ l : List (ℕ × ℕ), l.Nodup → ∀ e : ℕ × ℕ, l.count e ≤ 1
  | [], _, _ => by simp
  | a :: l, h, e => by
      obtain ⟨ha, hl⟩ := List.nodup_cons.mp h
      rw [List.count_cons]
      by_cases hea : e = a
      · subst hea
        rw [List.count_eq_zero_of_not_mem ha]
        simp
      · have := count_le_one_of_nodup l hl e
        simp only [beq_iff_eq, hea, Ne.symm hea, if_false]
        omega

theorem count_triangleEdges (t : ℕ × ℕ × ℕ) (h : nondegenerate t)
    (e : ℕ × ℕ) :
    (triangleEdges t).count e = if e ∈ triangleEdges t then 1 else 0 := by
  by_cases he : e ∈ triangleEdges t
  · rw [if_pos he]
    exact le_antisymm (count_le_one_of_nodup _ (triangleEdges_nodup t h) e)
      (List.count_pos_iff.mpr he)
  · rw [if_neg he, List.count_eq_zero_of_not_mem he]

theorem count_flatMap_triangleEdges (e : ℕ × ℕ) :
    ∀ ts : List (ℕ × ℕ × ℕ), (∀ t ∈ ts, nondegenerate t) →
      (ts.flatMap triangleEdges).count e =
        ts.countP fun t => decide (e ∈ triangleEdges t)
  | [], _ => rfl
  | t :: ts, h => by
      rw [List.flatMap_cons, List.count_append, List.countP_cons,
        count_flatMap_triangleEdges e ts
          (fun t' ht' => h t' (List.mem_cons_of_mem t ht')),
        count_triangleEdges t (h t (List.mem_cons_self t ts))]
      by_cases he : e ∈ triangleEdges t <;> (simp [he]; all_goals omega)

theorem mem_insertKey (acc : List (ℕ × ℕ)) (a e : ℕ × ℕ) :
    e ∈ insertKey acc a ↔ e ∈ acc ∨ e = a := by
  unfold insertKey
  split
  · rename_i ha
    constructor
    · exact Or.inl
    · rintro (h' | rfl)
      · exact h'
      · exact ha
  · simp [List.mem_append]

theorem mem_foldl_insertKey (e : ℕ × ℕ) :
    ∀ l acc : List (ℕ × ℕ), e ∈ l.foldl insertKey acc ↔ e ∈ acc ∨ e ∈ l
  | [], acc => by simp
  | a :: l, acc => by
      rw [List.foldl_cons, mem_foldl_insertKey e l (insertKey acc a),
        mem_insertKey]
      simp only [List.mem_cons]
      tauto

theorem nodup_insertKey (acc : List (ℕ × ℕ)) (a : ℕ × ℕ) (h : acc.Nodup) :
    (insertKey acc a).Nodup := by
  unfold insertKey
  split
  · exact h
  · rename_i ha
    simp [List.nodup_append, h, ha]

theorem nodup_foldl_insertKey :
    ∀ l acc : List (ℕ × ℕ), acc.Nodup → (l.foldl insertKey acc).Nodup
  | [], _, h => h
  | a :: l, acc, h =>
      nodup_foldl_insertKey l (insertKey acc a) (nodup_insertKey acc a h)

theorem mem_findBoundaryEdges (faces : List ℕ) (e : ℕ × ℕ) :
    e ∈ findBoundaryEdges faces ↔ (meshEdges faces).count e = 1 := by
  unfold findBoundaryEdges dedupKeys
  rw [List.mem_filter, mem_foldl_insertKey]
  simp only [List.not_mem_nil, false_or, decide_eq_true_eq]
  constructor
  · exact And.right
  · intro h
    exact ⟨List.count_pos_iff.mp (by omega), h⟩

/-- C3: under the caller contract (well-formed buffer, no degenerate
triangle), the Boundary Edge Finder returns a duplicate-free list containing
a canonical edge pair exactly when the number of triangles of the face buffer
containing that edge is exactly one. In particular a single triangle yields
all 3 of its edges and two triangles sharing one edge yield exactly the 4
unshared edges. -/
theorem boundary_edge_finder (faces : List ℕ) (_hf : 3 ∣ faces.length)
    (hnd : ∀ t ∈ meshTriangles faces, nondegenerate t) :
    (findBoundaryEdges faces).Nodup ∧
      ∀ e : ℕ × ℕ, e ∈ findBoundaryEdges faces ↔
        (meshTriangles faces).countP
          (fun t => decide (e ∈ triangleEdges t)) = 1 := by
  refine ⟨(nodup_foldl_insertKey _ [] List.nodup_nil).filter _, fun e => ?_⟩
  rw [mem_findBoundaryEdges, meshEdges_eq_flatMap,
    count_flatMap_triangleEdges e _ hnd]

/-- Closed instance of C3 on the two-triangle square, specialized to the
shared diagonal (0,2), which is not a boundary edge. -/
theorem boundary_edge_finder_witness :
    (findBoundaryEdges [0,1,2, 0,2,3]).Nodup ∧
      ((0, 2) ∈ findBoundaryEdges [0,1,2, 0,2,3] ↔
        (meshTriangles [0,1,2, 0,2,3]).countP
          (fun t => decide ((0, 2) ∈ triangleEdges t)) = 1) :=
  ⟨(boundary_edge_finder [0,1,2, 0,2,3] (by decide) (by decide)).1,
   (boundary_edge_finder [0,1,2, 0,2,3] (by decide) (by decide)).2 (0, 2)⟩

/-- C5: when the position attribute, the components list, or the first
component's face buffer is absent, the extruder returns the input mesh
unchanged. -/
theorem extruder_fallback (m : Mesh) (elev : ℚ)
    (h : m.position = none ∨ m.components = none ∨ m.firstFaces = none) :
    extrudeTerrainMesh m elev = m := by
  rcases hp : m.position with - | verts <;>
    rcases hff : m.firstFaces with - | faces <;>
      rcases hc : m.components with - | cs <;>
        simp only [extrudeTerrainMesh, hp, hff, hc]
  rcases h with h | h | h
  · exact absurd hp (h ▸ Option.some_ne_none verts).symm.elim
  · exact absurd hc (h ▸ Option.some_ne_none cs).symm.elim
  · exact absurd hff (h ▸ Option.some_ne_none faces).symm.elim

/-- Closed instance of C5: a mesh with no position buffer passes through. -/
theorem extruder_fallback_witness :
    extrudeTerrainMesh ⟨none, some [⟨some [0,1,2]⟩], 4⟩ 5 =
      ⟨none, some [⟨some [0,1,2]⟩], 4⟩ :=
  extruder_fallback _ 5 (Or.inl rfl)

/-! ## C6: the bottom elevation formula of `extractElevation` -/

theorem foldl_min_min (b : ℚ) :
    ∀ (l : List ℚ) (a : ℚ), l.foldl min (min b a) = min b (l.foldl min a)
  | [], _ => rfl
  | c :: l, a => by
      rw [List.foldl_cons, List.foldl_cons, min_assoc, foldl_min_min b l (min a c)]

theorem foldl_min_eq_min (l : List ℚ) (b m : ℚ) (h : l.min? = some m) :
    l.foldl min b = min b m := by
  cases l with
  | nil => simp [List.min?] at h
  | cons a l =>
      have hm : m = l.foldl min a := by
        simp only [List.min?, Option.some.injEq] at h
        exact h.symm
      rw [hm, List.foldl_cons, foldl_min_min b l a]

/-- C6: when extrusion is enabled and the features map contains at least one
feature with a defined minimum z, the bottom elevation handed to the Solid
Extruder is `min(terrain zmin, min over the features' defined zmins) −
extrusion depth`. -/
theorem base_elevation_formula (mesh : Mesh) (layers : List (List (Option ℚ)))
    (depth tz m : ℚ)
    (hmin : (layers.flatten.filterMap id).min? = some m) :
    computeBaseElevation (some tz) (some layers) depth = min tz m - depth ∧
    extractElevation mesh (some tz) (some layers) true depth =
      extrudeTerrainMesh mesh (min tz m - depth) := by
  have hzs : layers.flatten.filterMap id ≠ [] := by
    intro h0
    rw [h0] at hmin
    simp [List.min?] at hmin
  have hflat : 0 < layers.flatten.length := by
    rcases h0 : layers.flatten with - | ⟨x, xs⟩
    · exact absurd (by rw [h0]; rfl) hzs
    · simp
  have hlay : 0 < layers.length := by
    rcases h1 : layers with - | ⟨l0, ls⟩
    · rw [h1] at hflat
      simp at hflat
    · simp
  have hbase : computeBaseElevation (some tz) (some layers) depth =
      min tz m - depth := by
    unfold computeBaseElevation
    simp only [Option.getD_some]
    rw [if_pos hlay, if_pos hflat, foldl_min_eq_min _ _ _ hmin]
  refine ⟨hbase, ?_⟩
  unfold extractElevation
  rw [hbase]
  rfl

/-- Closed instance of C6: terrain zmin 5, features with defined zmins 3 and
7 plus one undefined, depth 50. -/
theorem base_elevation_formula_witness :
    computeBaseElevation (some 5) (some [[some 3, none], [some 7]]) 50 =
      min 5 3 - 50 ∧
    extractElevation ⟨none, none, 0⟩ (some 5) (some [[some 3, none], [some 7]])
        true 50 =
      extrudeTerrainMesh ⟨none, none, 0⟩ (min 5 3 - 50) :=
  base_elevation_formula ⟨none, none, 0⟩ [[some 3, none], [some 7]] 50 5 3
    (by decide)

/-! ## C7: the Geometry Attribute Normalizer -/

/-- C7: on a geometry carrying the required position attribute, the
normalizer yields exactly the attribute set {position, normal, uv} with no
other attribute, and normalization is idempotent: normalizing the normalized
geometry yields the identical attribute set. -/
theorem normalize_geometry_attrs (g : BufferGeometry)
    (h : g.hasPosition = true) :
    normalizeGeometry g = some ⟨true, true, true, []⟩ ∧
    normalizeGeometry ⟨true, true, true, []⟩ = some ⟨true, true, true, []⟩ := by
  constructor
  · simp [normalizeGeometry, h]
  · rfl

/-- Closed instance of C7 on a geometry with position, no normal, no uv and a
color attribute. -/
theorem normalize_geometry_attrs_witness :
    normalizeGeometry ⟨true, false, false, ["color"]⟩ =
      some ⟨true, true, true, []⟩ ∧
    normalizeGeometry ⟨true, true, true, []⟩ = some ⟨true, true, true, []⟩ :=
  normalize_geometry_attrs ⟨true, false, false, ["color"]⟩ rfl

/-! ## C8, C9, C10: the conversion entry point -/

theorem applyScale_meshes (scene : Scene) (s : ℚ) :
    (applyScale scene s).meshes = scene.meshes := by
  unfold applyScale
  split <;> rfl

theorem convertToSTL_snd (merge : List BufferGeometry → Option BufferGeometry)
    (scene : Scene) (opts : ConversionOptions) :
    (convertToSTL merge scene opts).2 = applyScale scene opts.scale := by
  unfold convertToSTL
  dsimp only
  split
  · split
    · rfl
    · rcases merge (collectGeometries (applyScale scene opts.scale).meshes)
        with - | g <;> rfl
  · rfl

/-- C8: when merging is requested, some geometries were collected, and the
external merge fails, the conversion neither aborts nor surfaces an error: it
returns an output buffer produced by exporting the scene's components
independently, without merging. -/
theorem merge_failure_fallback
    (merge : List BufferGeometry → Option BufferGeometry)
    (scene : Scene) (opts : ConversionOptions)
    (hm : opts.mergeGeometries = true)
    (hne : collectGeometries scene.meshes ≠ [])
    (hfail : merge (collectGeometries scene.meshes) = none) :
    (convertToSTL merge scene opts).1 =
      .ok (.fromScene (applyScale scene opts.scale) opts.binary) := by
  have hlen : ¬(collectGeometries (applyScale scene opts.scale).meshes).length = 0 := by
    rw [applyScale_meshes]
    simpa [List.length_eq_zero] using hne
  unfold convertToSTL
  rw [hm, if_pos rfl, if_neg hlen, applyScale_meshes, hfail]

/-- Closed instance of C8: one mesh child, a merge that always fails. -/
theorem merge_failure_fallback_witness :
    (convertToSTL (fun _ => none) ⟨⟨1, 1, 1⟩, [⟨⟨true, true, true, []⟩⟩]⟩
        ⟨true, 1, true⟩).1 =
      .ok (.fromScene
        (applyScale ⟨⟨1, 1, 1⟩, [⟨⟨true, true, true, []⟩⟩]⟩ 1) true) :=
  merge_failure_fallback (fun _ => none)
    ⟨⟨1, 1, 1⟩, [⟨⟨true, true, true, []⟩⟩]⟩ ⟨true, 1, true⟩ rfl
    (by decide) rfl

/-- C9 counterexample: a scene with zero mesh children converted with
`mergeGeometries := false` still returns an output buffer (the exporter
serializes the empty scene), so the conversion does not fail for every empty
scene regardless of the merge option, contradicting the claim. -/
theorem empty_scene_no_merge_returns_buffer :
    (convertToSTL (fun _ => none) ⟨⟨1, 1, 1⟩, []⟩ ⟨true, 1, false⟩).1 =
      .ok (.fromScene ⟨⟨1, 1, 1⟩, []⟩ true) := rfl

/-- C9 (amended): with merging enabled — the default — a scene with zero mesh
children makes the conversion fail with the no-geometry error, producing no
output buffer. -/
theorem no_geometry_error
    (merge : List BufferGeometry → Option BufferGeometry)
    (scene : Scene) (opts : ConversionOptions)
    (hm : opts.mergeGeometries = true) (hempty : scene.meshes = []) :
    (convertToSTL merge scene opts).1 =
      .error "No mesh geometries found in the scene" := by
  have hlen : (collectGeometries (applyScale scene opts.scale).meshes).length = 0 := by
    rw [applyScale_meshes, hempty]
    rfl
  unfold convertToSTL
  rw [hm, if_pos rfl, if_pos hlen]

/-- Closed instance of the amended C9. -/
theorem no_geometry_error_witness :
    (convertToSTL (fun _ => none) ⟨⟨1, 1, 1⟩, []⟩ ⟨true, 2, true⟩).1 =
      .error "No mesh geometries found in the scene" :=
  no_geometry_error (fun _ => none) ⟨⟨1, 1, 1⟩, []⟩ ⟨true, 2, true⟩ rfl rfl

theorem scale_fix (s a : ℚ) (hs : s ≠ 1) (h : s * a = a) : a = 0 := by
  by_contra ha
  exact hs (mul_right_cancel₀ ha (by rw [h, one_mul]))

theorem vecScale_ne (s : ℚ) (v : Vec3) (hs : s ≠ 1) (hv : v ≠ ⟨0, 0, 0⟩) :
    vecScale s v ≠ v := by
  intro h
  obtain ⟨x, y, z⟩ := v
  simp only [vecScale, Vec3.mk.injEq] at h
  apply hv
  simp only [Vec3.mk.injEq]
  exact ⟨scale_fix s x hs h.1, scale_fix s y hs h.2.1, scale_fix s z hs h.2.2⟩

/-- C10: with a scale option different from 1 (and a scene whose scale vector
is not all-zero), the conversion mutates the caller's scene in place: after
the call the scene's scale is the old scale multiplied by the option, hence
different from before, and a second call with the same option compounds the
scaling. -/
theorem convert_scale_mutation
    (merge : List BufferGeometry → Option BufferGeometry)
    (scene : Scene) (opts : ConversionOptions)
    (hs : opts.scale ≠ 1) (hv : scene.scale ≠ ⟨0, 0, 0⟩) :
    (convertToSTL merge scene opts).2.scale = vecScale opts.scale scene.scale ∧
    (convertToSTL merge scene opts).2.scale ≠ scene.scale ∧
    (convertToSTL merge (convertToSTL merge scene opts).2 opts).2.scale =
      vecScale opts.scale (vecScale opts.scale scene.scale) := by
  have h1 : (convertToSTL merge scene opts).2 =
      { scene with scale := vecScale opts.scale scene.scale } := by
    rw [convertToSTL_snd]
    unfold applyScale
    rw [if_pos hs]
  refine ⟨by rw [h1], by rw [h1]; exact vecScale_ne _ _ hs hv, ?_⟩
  rw [convertToSTL_snd, h1]
  unfold applyScale
  rw [if_pos hs]

/-- Closed instance of C10 with scale 2 on a unit-scale empty scene. -/
theorem convert_scale_mutation_witness :
    (convertToSTL (fun _ => none) ⟨⟨1, 1, 1⟩, []⟩ ⟨true, 2, true⟩).2.scale =
      vecScale 2 ⟨1, 1, 1⟩ ∧
    (convertToSTL (fun _ => none) ⟨⟨1, 1, 1⟩, []⟩ ⟨true, 2, true⟩).2.scale ≠
      ⟨1, 1, 1⟩ ∧
    (convertToSTL (fun _ => none)
        (convertToSTL (fun _ => none) ⟨⟨1, 1, 1⟩, []⟩ ⟨true, 2, true⟩).2
        ⟨true, 2, true⟩).2.scale = vecScale 2 (vecScale 2 ⟨1, 1, 1⟩) :=
  convert_scale_mutation (fun _ => none) ⟨⟨1, 1, 1⟩, []⟩ ⟨true, 2, true⟩
    (by decide) (by decide)

end CityPortal
